import Mathlib

/-!
Verification of the data-aggregation pipeline of the e-commerce analytics
dashboard (`scripts/dashboard.py`, function `prepare_dashboard_data`).

The six input tables are modelled as lists of typed records, mirroring the
schemas of the spec's data model (section 3).  Prices are modelled as `ℚ`,
review scores as `ℕ`, delivery delays as `ℤ`, identifiers and labels as
`String`.

Pandas operations used by the pipeline are embedded as follows:

* `df1.merge(df2, on=k)` (inner, the default) keeps, for every left row in
  order, every matching right row in order — embedded as a `bind`/`filter`.
* `df1.merge(df2, on=k, how='left')` additionally keeps unmatched left rows
  with nulls on the right side.  When both frames share a non-key column,
  pandas renames the copies with the `_x`/`_y` suffixes; the lead pipeline
  depends on this, so that pipeline is embedded over an untyped data-frame
  model (`DFrame`) with named columns.
* `groupby(k)` (with the default `sort=True`) emits one group per distinct
  key, keys in ascending order — embedded by `sortedKeys` plus `filter`.
* `sort_values(c, ascending=False)` performs an ascending argsort and then
  reverses the whole index order (pandas `nargsort`); on ties the ascending
  argsort is order-preserving for the list sizes considered here, so it is
  embedded as a stable ascending insertion sort followed by `List.reverse`.
* `.head(n)` is `List.take n`.
-/

namespace Dashboard

/-! ### Input data model -/

/-- Row of the `order_items_clean` table. -/
structure OrderItem where
  order_id : String
  product_id : String
  seller_id : String
  price : ℚ
deriving DecidableEq, Repr

/-- Purchase timestamp; `.dt.to_period('M')` keeps only year and month. -/
structure Timestamp where
  year : Nat
  month : Nat
  day : Nat
deriving DecidableEq, Repr

/-- Row of the `orders_clean` table. -/
structure Order where
  order_id : String
  customer_id : String
  order_purchase_timestamp : Timestamp
  delivery_delay : Int
  delay_status : String
deriving DecidableEq, Repr

/-- Row of the `customers_clean` table. -/
structure Customer where
  customer_id : String
  customer_state : String
deriving DecidableEq, Repr

/-- Row of the `products_clean` table. -/
structure Product where
  product_id : String
  product_category_name : String
deriving DecidableEq, Repr

/-- Row of the `product_cat_name_clean` table. -/
structure CategoryTranslation where
  product_category_name : String
  product_category_name_english : String
deriving DecidableEq, Repr

/-- Row of the `order_reviews_clean` table. -/
structure OrderReview where
  order_id : String
  review_score : Nat
deriving DecidableEq, Repr

/-- Row of the `qualified_leads_clean` table (spec section 3:
`{mql_id, business_segment, ...}`). -/
structure QualifiedLead where
  mql_id : String
  business_segment : String
deriving DecidableEq, Repr

/-- Row of the `closed_leads_clean` table (spec section 3:
`{mql_id, business_segment, won_date}` with `won_date` optional). -/
structure ClosedLead where
  mql_id : String
  business_segment : String
  won_date : Option String
deriving DecidableEq, Repr

/-! ### Sorted distinct keys (pandas `groupby` key order)

Pandas `groupby` with the default `sort=True` produces one group per
distinct key, in ascending key order.  `sortedKeys` computes that list of
distinct keys, by inserting each key into a strictly sorted list. -/

/-- Insert a key into a strictly ascending list, keeping it strictly
ascending (duplicates are dropped). -/
def insertKey {κ : Type} [LinearOrder κ] (k : κ) : List κ → List κ
  | [] => [k]
  | x :: xs => if k < x then k :: x :: xs else if k = x then x :: xs else x :: insertKey k xs

/-- Distinct keys of a list, in strictly ascending order. -/
def sortedKeys {κ : Type} [LinearOrder κ] (l : List κ) : List κ :=
  l.foldr insertKey []

/-! ### Descending sort (pandas `sort_values(..., ascending=False)`)

Pandas sorts a single column in descending order by computing an ascending
argsort and reversing the resulting index order (`pandas.core.sorting.nargsort`).
It is embedded as a stable ascending insertion sort followed by `reverse`. -/

/-- Embedding of `df.sort_values(c, ascending=False)` where `f` reads the
sort column of a row: stable ascending sort by `f`, then reverse. -/
def sortValuesDesc {α : Type} (f : α → ℚ) (l : List α) : List α :=
  (List.insertionSort (fun a b => f a ≤ f b) l).reverse

/-! ### Report 1: revenue by category (`revenue_by_category`) -/

/-- Row of `order_items_clean.merge(products_clean[['product_id',
'product_category_name']], on='product_id')`.  All columns of the left
frame are kept; the right frame contributes `product_category_name`. -/
structure ItemWithCategory where
  order_id : String
  product_id : String
  seller_id : String
  price : ℚ
  product_category_name : String
deriving DecidableEq, Repr

/-- Inner merge of order items with products on `product_id` (pandas keeps,
for every left row in order, every matching right row in order). -/
def items_products (items : List OrderItem) (products : List Product) :
    List ItemWithCategory :=
  items.flatMap fun it =>
    (products.filter fun p => p.product_id = it.product_id).map fun p =>
      { order_id := it.order_id, product_id := it.product_id,
        seller_id := it.seller_id, price := it.price,
        product_category_name := p.product_category_name }

/-- Row of the further merge with `product_cat_name_clean` on
`product_category_name` (only the columns used downstream are carried). -/
structure ItemWithCategoryEn where
  order_id : String
  price : ℚ
  product_category_name_english : String
deriving DecidableEq, Repr

/-- Inner merge of `items_products` with the category translations on
`product_category_name`. -/
def joined_category (items : List OrderItem) (products : List Product)
    (trans : List CategoryTranslation) : List ItemWithCategoryEn :=
  (items_products items products).flatMap fun ic =>
    (trans.filter fun t => t.product_category_name = ic.product_category_name).map fun t =>
      { order_id := ic.order_id, price := ic.price,
        product_category_name_english := t.product_category_name_english }

/-- Row of the `revenue_by_category` report. -/
structure CategoryRow where
  product_category_name_english : String
  total_revenue : ℚ
  order_count : Nat
deriving DecidableEq, Repr

/-- `revenue_by_category`: group the joined items by English category name,
aggregate `total_revenue = sum(price)` and `order_count = count(order_id)`
(pandas `count` counts non-null entries, i.e. rows), then sort descending
by `total_revenue`. -/
def revenue_by_category (items : List OrderItem) (products : List Product)
    (trans : List CategoryTranslation) : List CategoryRow :=
  sortValuesDesc (fun r => r.total_revenue)
    ((sortedKeys ((joined_category items products trans).map
        (fun r => r.product_category_name_english))).map fun k =>
      let g := (joined_category items products trans).filter
        (fun r => r.product_category_name_english = k)
      { product_category_name_english := k,
        total_revenue := (g.map (fun r => r.price)).sum,
        order_count := g.length })

/-! ### Report 2: revenue by region (`revenue_by_region`) -/

/-- The code first projects `order_items_clean[['order_id', 'price']]`;
a projected item row is the pair `(order_id, price)`. -/
def items_proj (items : List OrderItem) : List (String × ℚ) :=
  items.map fun it => (it.order_id, it.price)

/-- Row of the merge of the projected items with
`orders_clean[['order_id', 'customer_id']]` and then with
`customers_clean[['customer_id', 'customer_state']]`. -/
structure ItemWithState where
  order_id : String
  price : ℚ
  customer_id : String
  customer_state : String
deriving DecidableEq, Repr

/-- The two inner merges of the region pipeline, on `order_id` then on
`customer_id`, starting from the projected item rows. -/
def joined_region_proj (pitems : List (String × ℚ)) (orders : List Order)
    (customers : List Customer) : List ItemWithState :=
  (pitems.flatMap fun it =>
      (orders.filter fun o => o.order_id = it.1).map fun o => (it.1, it.2, o.customer_id)).flatMap
    fun x =>
      (customers.filter fun cu => cu.customer_id = x.2.2).map fun cu =>
        { order_id := x.1, price := x.2.1, customer_id := x.2.2,
          customer_state := cu.customer_state }

/-- Row of the `revenue_by_region` report. -/
structure RegionRow where
  customer_state : String
  total_revenue : ℚ
  order_count : Nat
deriving DecidableEq, Repr

/-- Region report computed from the already-projected item rows: group by
`customer_state`, aggregate sum of price and count of rows, sort descending. -/
def revenue_by_region_proj (pitems : List (String × ℚ)) (orders : List Order)
    (customers : List Customer) : List RegionRow :=
  sortValuesDesc (fun r => r.total_revenue)
    ((sortedKeys ((joined_region_proj pitems orders customers).map
        (fun r => r.customer_state))).map fun k =>
      let g := (joined_region_proj pitems orders customers).filter
        (fun r => r.customer_state = k)
      { customer_state := k,
        total_revenue := (g.map (fun r => r.price)).sum,
        order_count := g.length })

/-- `revenue_by_region`: the code projects the item table to
`['order_id', 'price']` before any merge, so the report factors through
`items_proj`. -/
def revenue_by_region (items : List OrderItem) (orders : List Order)
    (customers : List Customer) : List RegionRow :=
  revenue_by_region_proj (items_proj items) orders customers

/-! ### Report 3: revenue by seller (`revenue_by_seller`) -/

/-- Row of the `revenue_by_seller` report. -/
structure SellerRow where
  seller_id : String
  total_revenue : ℚ
  order_count : Nat
deriving DecidableEq, Repr

/-- Per-seller aggregation: group `order_items_clean` directly by
`seller_id` (no join), aggregate sum of price and count of rows;
`groupby` emits the groups in ascending key order. -/
def seller_agg (items : List OrderItem) : List SellerRow :=
  (sortedKeys (items.map (fun it => it.seller_id))).map fun k =>
    let g := items.filter (fun it => it.seller_id = k)
    { seller_id := k,
      total_revenue := (g.map (fun it => it.price)).sum,
      order_count := g.length }

/-- `revenue_by_seller`: aggregate per seller, sort descending by
`total_revenue`, and keep the first 20 rows (`.head(20)`). -/
def revenue_by_seller (items : List OrderItem) : List SellerRow :=
  (sortValuesDesc (fun r => r.total_revenue) (seller_agg items)).take 20

/-! ### Report 4: delivery metrics (`delivery_metrics`) -/

/-- Row of the `delivery_metrics` report. -/
structure DeliveryRow where
  delivery_delay : Int
  delay_status : String
deriving DecidableEq, Repr

/-- `delivery_metrics`: the column projection
`orders_clean[['delivery_delay', 'delay_status']].copy()`. -/
def delivery_metrics (orders : List Order) : List DeliveryRow :=
  orders.map fun o =>
    { delivery_delay := o.delivery_delay, delay_status := o.delay_status }

/-! ### Report 5: satisfaction over time (`satisfaction_over_time`) -/

/-- A month period, as produced by `.dt.to_period('M')`: the number of
months since year 0 (year and month determine it and vice versa). -/
def periodM (t : Timestamp) : Nat := t.year * 12 + t.month

/-- Row of the merge of `order_reviews_clean` with
`orders_clean[['order_id', 'order_purchase_timestamp']]`, after the
`order_month` column has been added. -/
structure ReviewWithMonth where
  order_month : Nat
  review_score : Nat
deriving DecidableEq, Repr

/-- Inner merge of reviews with orders on `order_id` (the code uses the
default `how='inner'`, so reviews without a matching order are dropped),
with the purchase timestamp truncated to a month period. -/
def satisfaction_joined (reviews : List OrderReview) (orders : List Order) :
    List ReviewWithMonth :=
  reviews.flatMap fun rv =>
    (orders.filter fun o => o.order_id = rv.order_id).map fun o =>
      { order_month := periodM o.order_purchase_timestamp,
        review_score := rv.review_score }

/-- Row of the `satisfaction_over_time` report. -/
structure SatisfactionRow where
  order_month : Nat
  mean : ℚ
  count : Nat
deriving DecidableEq, Repr

/-- `satisfaction_over_time`: group the joined reviews by `order_month`
(ascending, the `groupby` default) and aggregate mean and count of
`review_score`; the code applies no further sort. -/
def satisfaction_over_time (reviews : List OrderReview) (orders : List Order) :
    List SatisfactionRow :=
  (sortedKeys ((satisfaction_joined reviews orders).map
      (fun r => r.order_month))).map fun k =>
    { order_month := k,
      mean := (((satisfaction_joined reviews orders).filter
          (fun r => r.order_month = k)).map (fun r => (r.review_score : ℚ))).sum /
        (((satisfaction_joined reviews orders).filter
          (fun r => r.order_month = k)).length : ℚ),
      count := ((satisfaction_joined reviews orders).filter
        (fun r => r.order_month = k)).length }

/-! ### Report 6: lead metrics (`lead_metrics`) -/

/-- The `lead_metrics` scalar summary. -/
structure LeadMetrics where
  total_qualified_leads : Nat
  total_closed_leads : Nat
  conversion_rate : ℚ
deriving DecidableEq, Repr

/-- Conversion rate of the scalar summary:
`(len(closed) / len(qualified) * 100) if len(qualified) > 0 else 0`. -/
def lead_metrics_conversion_rate (q : List QualifiedLead) (c : List ClosedLead) : ℚ :=
  if 0 < q.length then ((c.length : ℚ) / (q.length : ℚ)) * 100 else 0

/-- `lead_metrics`: row counts of the two lead tables plus the guarded
conversion rate. -/
def lead_metrics (q : List QualifiedLead) (c : List ClosedLead) : LeadMetrics :=
  { total_qualified_leads := q.length,
    total_closed_leads := c.length,
    conversion_rate := lead_metrics_conversion_rate q c }

/-! ### Report 7: lead conversion by segment (`lead_conversion_by_segment`)

This pipeline left-merges two frames that both carry a `business_segment`
column, merging on `mql_id` only.  Pandas renames overlapping non-key
columns with the `_x`/`_y` suffixes, so the column named
`business_segment` does not survive the merge; the subsequent
`groupby('business_segment')` therefore raises a `KeyError`.  To capture
this the lead pipeline is embedded over an untyped data-frame model with
explicit column names. -/

/-- A cell value: a string or a null (pandas `NaN`/`NaT`). -/
inductive DVal where
  | s : String → DVal
  | null : DVal
deriving DecidableEq, Repr

/-- A data-frame row: an association list from column name to value. -/
abbrev DRow := List (String × DVal)

/-- A data frame: column names plus rows keyed by those names. -/
structure DFrame where
  cols : List String
  rows : List DRow
deriving DecidableEq, Repr

/-- Look up a column of a row. -/
def dlookup (c : String) (r : DRow) : Option DVal :=
  (r.find? (fun p => p.1 = c)).map (fun p => p.2)

/-- Rename applied by `merge` to the left frame's columns: a non-key column
also present in the right frame gets the `_x` suffix. -/
def suffixLeft (rcols : List String) (key c : String) : String :=
  if c ≠ key ∧ c ∈ rcols then c ++ "_x" else c

/-- Rename applied by `merge` to the right frame's non-key columns: a column
also present in the left frame gets the `_y` suffix. -/
def suffixRight (lcols : List String) (c : String) : String :=
  if c ∈ lcols then c ++ "_y" else c

/-- Embedding of `left.merge(right, on=key, how='left')`: every left row is
kept in order; matching right rows (by the key column) are appended in
order, or nulls when there is no match; overlapping non-key columns are
renamed with the `_x`/`_y` suffixes. -/
def merge_left (l r : DFrame) (key : String) : DFrame :=
  let rkept := r.cols.filter (fun c => c ≠ key)
  { cols := l.cols.map (suffixLeft r.cols key) ++ rkept.map (suffixRight l.cols),
    rows := l.rows.flatMap fun lr =>
      let lvals := l.cols.map fun c =>
        (suffixLeft r.cols key c, (dlookup c lr).getD DVal.null)
      let ms := r.rows.filter (fun rr => dlookup key rr = dlookup key lr)
      if ms.isEmpty then
        [lvals ++ rkept.map (fun c => (suffixRight l.cols c, DVal.null))]
      else
        ms.map fun rr =>
          lvals ++ rkept.map (fun c => (suffixRight l.cols c, (dlookup c rr).getD DVal.null)) }

/-- The `qualified_leads_clean` table as a data frame. -/
def qualifiedDF (q : List QualifiedLead) : DFrame :=
  { cols := ["mql_id", "business_segment"],
    rows := q.map fun x =>
      [("mql_id", DVal.s x.mql_id), ("business_segment", DVal.s x.business_segment)] }

/-- The selection `closed_leads_clean[['mql_id', 'business_segment',
'won_date']]` as a data frame. -/
def closedDF (c : List ClosedLead) : DFrame :=
  { cols := ["mql_id", "business_segment", "won_date"],
    rows := c.map fun x =>
      [("mql_id", DVal.s x.mql_id), ("business_segment", DVal.s x.business_segment),
       ("won_date", match x.won_date with | some d => DVal.s d | none => DVal.null)] }

/-- Row of the `lead_conversion_by_segment` report. -/
structure SegmentRow where
  business_segment : String
  total_leads : Nat
  converted_leads : Nat
  conversion_rate : ℚ
deriving DecidableEq, Repr

/-- Non-null segment value of a merged row under column name `c`. -/
def segmentOf (c : String) (row : DRow) : Option String :=
  match dlookup c row with
  | some (DVal.s v) => some v
  | _ => none

/-- `lead_conversion_by_segment`: left-merge the lead tables on `mql_id`,
then group by the column named `business_segment`, counting `mql_id`
entries as `total_leads` and non-null `won_date` entries as
`converted_leads`, with the rate `converted / total * 100` (and the
`fillna(0)` guard for an undefined ratio).  Grouping by a column that is
absent from the merged frame is a `KeyError`, returned as `Except.error`. -/
def lead_conversion_by_segment (q : List QualifiedLead) (c : List ClosedLead) :
    Except String (List SegmentRow) :=
  let merged := merge_left (qualifiedDF q) (closedDF c) "mql_id"
  if "business_segment" ∈ merged.cols then
    Except.ok
      ((sortedKeys (merged.rows.filterMap (segmentOf "business_segment"))).map fun k =>
        let g := merged.rows.filter (fun row => segmentOf "business_segment" row = some k)
        let total := (g.filter (fun row => (dlookup "mql_id" row).getD DVal.null ≠ DVal.null)).length
        let conv := (g.filter (fun row =>
          match dlookup "won_date" row with | some (DVal.s _) => true | _ => false)).length
        { business_segment := k, total_leads := total, converted_leads := conv,
          conversion_rate := if total = 0 then 0 else ((conv : ℚ) / (total : ℚ)) * 100 })
  else
    Except.error "KeyError: business_segment"

/-! ### The full pipeline (`prepare_dashboard_data`) -/

/-- The input tables referenced by `prepare_dashboard_data`. -/
structure Inputs where
  order_items_clean : List OrderItem
  orders_clean : List Order
  customers_clean : List Customer
  products_clean : List Product
  product_cat_name_clean : List CategoryTranslation
  order_reviews_clean : List OrderReview
  qualified_leads_clean : List QualifiedLead
  closed_leads_clean : List ClosedLead
deriving DecidableEq, Repr

/-- The dictionary returned by `prepare_dashboard_data`. -/
structure Outputs where
  revenue_by_category : List CategoryRow
  revenue_by_region : List RegionRow
  revenue_by_seller : List SellerRow
  delivery_metrics : List DeliveryRow
  satisfaction_over_time : List SatisfactionRow
  lead_metrics : LeadMetrics
  lead_conversion_by_segment : Except String (List SegmentRow)
deriving Repr

/-- `prepare_dashboard_data`: computes the seven reports from the input
tables and nothing else. -/
def prepare_dashboard_data (i : Inputs) : Outputs :=
  { revenue_by_category :=
      revenue_by_category i.order_items_clean i.products_clean i.product_cat_name_clean,
    revenue_by_region :=
      revenue_by_region i.order_items_clean i.orders_clean i.customers_clean,
    revenue_by_seller := revenue_by_seller i.order_items_clean,
    delivery_metrics := delivery_metrics i.orders_clean,
    satisfaction_over_time :=
      satisfaction_over_time i.order_reviews_clean i.orders_clean,
    lead_metrics := lead_metrics i.qualified_leads_clean i.closed_leads_clean,
    lead_conversion_by_segment :=
      lead_conversion_by_segment i.qualified_leads_clean i.closed_leads_clean }

/-! ### Concrete example inputs

Small input tables used by the example-based claims, the counterexamples
and the witnesses. -/

/-- Two item rows of the same order and product (so both rows join into the
same category group). -/
def exItems1 : List OrderItem := [⟨"o1", "p", "s", 5⟩, ⟨"o1", "p", "s", 7⟩]

/-- A single product in category `c`. -/
def exProducts1 : List Product := [⟨"p", "c"⟩]

/-- The translation of category `c`. -/
def exTrans1 : List CategoryTranslation := [⟨"c", "c_en"⟩]

/-- The spec's seller example: two orders of seller `A` with prices 10
and 20. -/
def exItems4 : List OrderItem := [⟨"1", "p", "A", 10⟩, ⟨"2", "p", "A", 20⟩]

/-- Item table with 21 sellers: `A` (first occurrence first) and `B` are
tied with revenue 10, the 19 sellers `C01`–`C19` have revenue 100, so the
tie between `A` and `B` sits exactly at the 20th position of the seller
ranking. -/
def exItems6 : List OrderItem :=
  [⟨"o01", "p", "A", 10⟩, ⟨"o02", "p", "B", 10⟩,
   ⟨"o03", "p", "C01", 100⟩, ⟨"o04", "p", "C02", 100⟩, ⟨"o05", "p", "C03", 100⟩,
   ⟨"o06", "p", "C04", 100⟩, ⟨"o07", "p", "C05", 100⟩, ⟨"o08", "p", "C06", 100⟩,
   ⟨"o09", "p", "C07", 100⟩, ⟨"o10", "p", "C08", 100⟩, ⟨"o11", "p", "C09", 100⟩,
   ⟨"o12", "p", "C10", 100⟩, ⟨"o13", "p", "C11", 100⟩, ⟨"o14", "p", "C12", 100⟩,
   ⟨"o15", "p", "C13", 100⟩, ⟨"o16", "p", "C14", 100⟩, ⟨"o17", "p", "C15", 100⟩,
   ⟨"o18", "p", "C16", 100⟩, ⟨"o19", "p", "C17", 100⟩, ⟨"o20", "p", "C18", 100⟩,
   ⟨"o21", "p", "C19", 100⟩]

/-- Two sellers tied with revenue 10 (both inside the top 20). -/
def exItems6w : List OrderItem := [⟨"o1", "p", "A", 10⟩, ⟨"o2", "p", "B", 10⟩]

/-- One item row with a non-negative price. -/
def exItems7 : List OrderItem := [⟨"o", "p", "s", 5⟩]

/-- A product table whose `product_id` column is not unique: the inner
merge on `product_id` then fans out each matching item row. -/
def exProducts7 : List Product := [⟨"p", "c"⟩, ⟨"p", "c"⟩]

/-- The spec's lead example: two qualified leads of segment `X`. -/
def exQ2 : List QualifiedLead := [⟨"1", "X"⟩, ⟨"2", "X"⟩]

/-- The spec's lead example: one closed lead. -/
def exC2 : List ClosedLead := [⟨"1", "X", some "2020-01-01"⟩]

/-- One qualified lead. -/
def exQ3 : List QualifiedLead := [⟨"1", "X"⟩]

/-- Two closed-lead rows for a single qualified lead. -/
def exC3 : List ClosedLead := [⟨"1", "X", some "d"⟩, ⟨"1", "X", some "d"⟩]

/-- One review with score 5. -/
def exReviews5 : List OrderReview := [⟨"o", 5⟩]

/-- One order, purchased 2017-03-15. -/
def exOrders5 : List Order := [⟨"o", "cu", ⟨2017, 3, 15⟩, -2, "Early"⟩]

/-- A fixed input bundle. -/
def exInputs : Inputs :=
  { order_items_clean := exItems1, orders_clean := exOrders5,
    customers_clean := [⟨"cu", "SP"⟩], products_clean := exProducts1,
    product_cat_name_clean := exTrans1, order_reviews_clean := exReviews5,
    qualified_leads_clean := exQ2, closed_leads_clean := exC2 }

/-- Ascending priority order used by the seller ranking: `a` comes before
`b` in the ascending sort exactly when `a` has smaller revenue, or equal
revenue and smaller seller id (the sort is stable and its input is listed
in ascending seller-id order). -/
def sellerPriority (a b : SellerRow) : Prop :=
  a.total_revenue < b.total_revenue ∨
    (a.total_revenue = b.total_revenue ∧ a.seller_id < b.seller_id)

/-! ### General lemmas -/

theorem mem_insertKey {κ : Type} [LinearOrder κ] (k : κ) (l : List κ) (a : κ) :
    a ∈ insertKey k l ↔ a = k ∨ a ∈ l := by
  induction l with
  | nil => simp [insertKey]
  | cons x xs ih =>
    by_cases h1 : k < x
    · simp [insertKey, h1]
    · by_cases h2 : k = x
      · subst h2
        simp only [insertKey, h1, if_false, if_pos rfl]
        constructor
        · intro h; exact Or.inr h
        · rintro (rfl | h)
          · exact List.mem_cons_self _ _
          · exact h
      · simp only [insertKey, h1, h2, if_false, List.mem_cons, ih]
        tauto

theorem sorted_insertKey {κ : Type} [LinearOrder κ] (k : κ) (l : List κ)
    (h : l.Pairwise (· < ·)) : (insertKey k l).Pairwise (· < ·) := by
  induction l with
  | nil => simp [insertKey]
  | cons x xs ih =>
    rcases List.pairwise_cons.mp h with ⟨hx, hxs⟩
    by_cases h1 : k < x
    · simp only [insertKey, h1, if_true]
      exact List.pairwise_cons.mpr ⟨by
        intro b hb
        rcases List.mem_cons.mp hb with rfl | hb
        · exact h1
        · exact lt_trans h1 (hx b hb), h⟩
    · by_cases h2 : k = x
      · subst h2; simpa [insertKey, h1] using h
      · have hxk : x < k := by
          rcases lt_trichotomy k x with h | h | h
          · exact absurd h h1
          · exact absurd h h2
          · exact h
        simp only [insertKey, h1, h2, if_false]
        exact List.pairwise_cons.mpr ⟨by
          intro b hb
          rcases (mem_insertKey k xs b).mp hb with rfl | hb
          · exact hxk
          · exact hx b hb, ih hxs⟩

theorem mem_sortedKeys {κ : Type} [LinearOrder κ] (l : List κ) (a : κ) :
    a ∈ sortedKeys l ↔ a ∈ l := by
  induction l with
  | nil => simp [sortedKeys]
  | cons x xs ih =>
    simp only [sortedKeys, List.foldr_cons] at *
    rw [mem_insertKey, ih, List.mem_cons]

theorem sorted_sortedKeys {κ : Type} [LinearOrder κ] (l : List κ) :
    (sortedKeys l).Pairwise (· < ·) := by
  induction l with
  | nil => simp [sortedKeys]
  | cons x xs ih =>
    simp only [sortedKeys, List.foldr_cons]
    exact sorted_insertKey x _ ih

theorem pairwise_le_orderedInsert {α : Type} (f : α → ℚ) (x : α) (l : List α)
    (h : l.Pairwise (fun a b => f a ≤ f b)) :
    (List.orderedInsert (fun a b => f a ≤ f b) x l).Pairwise (fun a b => f a ≤ f b) := by
  induction l with
  | nil => simp
  | cons b t ih =>
    rcases List.pairwise_cons.mp h with ⟨hb, ht⟩
    simp only [List.orderedInsert]
    split
    case isTrue hxb =>
      refine List.pairwise_cons.mpr ⟨?_, h⟩
      intro c hc
      rcases List.mem_cons.mp hc with rfl | hc
      · exact hxb
      · exact le_trans hxb (hb c hc)
    case isFalse hxb =>
      refine List.pairwise_cons.mpr ⟨?_, ih ht⟩
      intro c hc
      rcases List.mem_cons.mp ((List.perm_orderedInsert _ x t).mem_iff.mp hc) with rfl | hc
      · exact le_of_lt (not_le.mp hxb)
      · exact hb c hc

theorem pairwise_le_insertionSort {α : Type} (f : α → ℚ) (l : List α) :
    (List.insertionSort (fun a b => f a ≤ f b) l).Pairwise (fun a b => f a ≤ f b) := by
  induction l with
  | nil => simp
  | cons x xs ih =>
    simpa only [List.insertionSort] using pairwise_le_orderedInsert f x _ ih

theorem pairwise_ge_sortValuesDesc {α : Type} (f : α → ℚ) (l : List α) :
    (sortValuesDesc f l).Pairwise (fun a b => f b ≤ f a) := by
  unfold sortValuesDesc
  exact List.pairwise_reverse.mpr (pairwise_le_insertionSort f l)

theorem perm_sortValuesDesc {α : Type} (f : α → ℚ) (l : List α) :
    (sortValuesDesc f l).Perm l :=
  (List.reverse_perm _).trans (List.perm_insertionSort _ l)

theorem mem_sortValuesDesc {α : Type} (f : α → ℚ) (l : List α) (a : α) :
    a ∈ sortValuesDesc f l ↔ a ∈ l :=
  (perm_sortValuesDesc f l).mem_iff

/-! ### Shared pipeline lemmas -/

/-- The merged lead frame never has a `business_segment` column: both input
frames carry one and the merge on `mql_id` renames the two copies to
`business_segment_x` and `business_segment_y`, so grouping by
`business_segment` fails for every input. -/
theorem lead_conversion_by_segment_keyerror (q : List QualifiedLead) (c : List ClosedLead) :
    lead_conversion_by_segment q c = Except.error "KeyError: business_segment" := rfl

/-- Columns of the merged lead frame, for every input. -/
theorem merge_left_lead_cols (q : List QualifiedLead) (c : List ClosedLead) :
    (merge_left (qualifiedDF q) (closedDF c) "mql_id").cols =
      ["mql_id", "business_segment_x", "business_segment_y", "won_date"] := rfl

/-! ### Claim C2 -/

/-- C2: the claim states that `LeadConversionBySegment` left-joins
`QualifiedLead` to `ClosedLead` on `mql_id`, groups by `business_segment`,
and on the spec's example yields `{total_leads: 2, converted_leads: 1,
conversion_rate: 50.0}` for segment `X`.  On the code this computation
never produces rows: both frames carry a `business_segment` column and the
merge is keyed only on `mql_id`, so pandas renames the shared column to
`business_segment_x`/`business_segment_y` and `groupby('business_segment')`
raises a `KeyError`.  This theorem evaluates the embedded pipeline at the
claim's own example input. -/
theorem C2_segment_groupby_raises_keyerror :
    (merge_left (qualifiedDF exQ2) (closedDF exC2) "mql_id").cols =
      ["mql_id", "business_segment_x", "business_segment_y", "won_date"] ∧
    lead_conversion_by_segment exQ2 exC2 = Except.error "KeyError: business_segment" :=
  ⟨rfl, rfl⟩

/-! ### Claim C8 -/

/-- C8: `DeliveryMetrics` is a pure per-order projection of the
`{delivery_delay, delay_status}` columns of `Order`: one row per order
row, in order, with both values passed through unchanged (in particular no
clipping of `delivery_delay` is applied in the pipeline output). -/
theorem C8_delivery_metrics_is_projection (orders : List Order) :
    (delivery_metrics orders).length = orders.length ∧
    ∀ i : Nat, (delivery_metrics orders)[i]? =
      (orders[i]?).map fun o =>
        { delivery_delay := o.delivery_delay, delay_status := o.delay_status } := by
  refine ⟨by simp [delivery_metrics], fun i => ?_⟩
  simp [delivery_metrics, List.getElem?_map]

/-! ### Claim C9 -/

/-- C9: the pipeline is deterministic — its output is a pure function of
the input tables (the embedding of `prepare_dashboard_data` takes nothing
but the input tables, so two runs on equal inputs give equal reports). -/
theorem C9_pipeline_deterministic (i1 i2 : Inputs) (h : i1 = i2) :
    prepare_dashboard_data i1 = prepare_dashboard_data i2 := by
  rw [h]

/-- Witness for C9 at a concrete input bundle. -/
theorem C9_pipeline_deterministic_witness :
    exInputs = exInputs ∧ prepare_dashboard_data exInputs = prepare_dashboard_data exInputs :=
  ⟨rfl, C9_pipeline_deterministic exInputs exInputs rfl⟩

/-! ### Claim C10 -/

/-- C10: `RevenueByRegion` depends on the item table only through its
`order_id` and `price` columns: the code projects
`order_items_clean[['order_id', 'price']]` before the joins, so two item
tables that agree row-for-row on those two columns produce the same
report, whatever their `product_id` and `seller_id` columns hold. -/
theorem C10_region_ignores_product_and_seller (items1 items2 : List OrderItem)
    (orders : List Order) (customers : List Customer)
    (h : items_proj items1 = items_proj items2) :
    revenue_by_region items1 orders customers = revenue_by_region items2 orders customers := by
  unfold revenue_by_region
  rw [h]

/-- Witness for C10: the two single-row item tables differ in `product_id`
and `seller_id` but agree on `order_id` and `price`. -/
theorem C10_region_ignores_product_and_seller_witness :
    items_proj [(⟨"o", "p1", "s1", 5⟩ : OrderItem)] = items_proj [(⟨"o", "p2", "s2", 5⟩ : OrderItem)] ∧
    revenue_by_region [(⟨"o", "p1", "s1", 5⟩ : OrderItem)] exOrders5 [⟨"cu", "SP"⟩] =
      revenue_by_region [(⟨"o", "p2", "s2", 5⟩ : OrderItem)] exOrders5 [⟨"cu", "SP"⟩] :=
  ⟨rfl, C10_region_ignores_product_and_seller _ _ exOrders5 [⟨"cu", "SP"⟩] rfl⟩

/-! ### Claim C4 -/

/-- C4: `RevenueByCategory`, `RevenueByRegion` and `RevenueBySeller` are
each sorted descending by `total_revenue`; `RevenueBySeller` has at most
20 rows; and on the spec's example (two orders of seller `A` with prices
10 and 20) `RevenueBySeller` contains the row
`{seller_id: "A", total_revenue: 30, order_count: 2}`. -/
theorem C4_reports_sorted_desc_seller_top20 :
    (∀ (items : List OrderItem) (products : List Product) (trans : List CategoryTranslation),
      (revenue_by_category items products trans).Pairwise
        (fun a b => b.total_revenue ≤ a.total_revenue)) ∧
    (∀ (items : List OrderItem) (orders : List Order) (customers : List Customer),
      (revenue_by_region items orders customers).Pairwise
        (fun a b => b.total_revenue ≤ a.total_revenue)) ∧
    (∀ items : List OrderItem,
      (revenue_by_seller items).Pairwise (fun a b => b.total_revenue ≤ a.total_revenue)) ∧
    (∀ items : List OrderItem, (revenue_by_seller items).length ≤ 20) ∧
    (⟨"A", 30, 2⟩ : SellerRow) ∈ revenue_by_seller exItems4 := by
  refine ⟨fun items products trans => pairwise_ge_sortValuesDesc _ _,
    fun items orders customers => pairwise_ge_sortValuesDesc _ _,
    fun items => List.Pairwise.sublist (List.take_sublist _ _) (pairwise_ge_sortValuesDesc _ _),
    fun items => List.length_take_le _ _, ?_⟩
  norm_num +decide [revenue_by_seller, seller_agg, sortedKeys, insertKey, sortValuesDesc,
    exItems4, List.filter, List.insertionSort, List.orderedInsert]

/-! ### Claim C1 -/

/-- C1 counterexample: the claim states that each `RevenueByCategory` row's
`order_count` equals the number of distinct `order_id` values among the
`OrderItem` rows that joined into the category.  The code aggregates with
`order_count=('order_id', 'count')`, which counts rows: on the input with
two item rows of the same order (`exItems1`) the report's `order_count` is
2 while the joined rows hold a single distinct `order_id`. -/
theorem C1_counterexample :
    ¬ ∀ r ∈ revenue_by_category exItems1 exProducts1 exTrans1,
        r.order_count = (((joined_category exItems1 exProducts1 exTrans1).filter
          (fun j => j.product_category_name_english = r.product_category_name_english)).map
          (fun j => j.order_id)).dedup.length := by
  intro h
  have h2 := h ⟨"c_en", 12, 2⟩ ?_
  · norm_num +decide [joined_category, items_products, exItems1, exProducts1, exTrans1,
      List.filter, List.dedup_cons_of_mem, List.dedup_cons_of_not_mem] at h2
  · norm_num +decide [revenue_by_category, joined_category, items_products, sortedKeys,
      insertKey, sortValuesDesc, exItems1, exProducts1, exTrans1, List.filter,
      List.insertionSort, List.orderedInsert]

/-- C1 (amended): each `RevenueByCategory` row reports `order_count` equal
to the number of `OrderItem` rows that joined into that English category
name (the row count, not the distinct-order count), `total_revenue` equal
to the sum of their prices, and the rows are sorted descending by
`total_revenue`. -/
theorem C1_category_rows (items : List OrderItem) (products : List Product)
    (trans : List CategoryTranslation) :
    (∀ r ∈ revenue_by_category items products trans,
      r.order_count = ((joined_category items products trans).filter
        (fun j => j.product_category_name_english = r.product_category_name_english)).length ∧
      r.total_revenue = (((joined_category items products trans).filter
        (fun j => j.product_category_name_english = r.product_category_name_english)).map
        (fun j => j.price)).sum) ∧
    (revenue_by_category items products trans).Pairwise
      (fun a b => b.total_revenue ≤ a.total_revenue) := by
  constructor
  · intro r hr
    unfold revenue_by_category at hr
    rw [mem_sortValuesDesc] at hr
    rcases List.mem_map.mp hr with ⟨k, hk, rfl⟩
    exact ⟨rfl, rfl⟩
  · exact pairwise_ge_sortValuesDesc _ _

/-- Witness for C1 at the concrete two-row input. -/
theorem C1_category_rows_witness :
    (⟨"c_en", 12, 2⟩ : CategoryRow) ∈ revenue_by_category exItems1 exProducts1 exTrans1 ∧
    ((⟨"c_en", 12, 2⟩ : CategoryRow).order_count =
      ((joined_category exItems1 exProducts1 exTrans1).filter
        (fun j => j.product_category_name_english = "c_en")).length) := by
  have hmem : (⟨"c_en", 12, 2⟩ : CategoryRow) ∈ revenue_by_category exItems1 exProducts1 exTrans1 := by
    norm_num +decide [revenue_by_category, joined_category, items_products, sortedKeys,
      insertKey, sortValuesDesc, exItems1, exProducts1, exTrans1, List.filter,
      List.insertionSort, List.orderedInsert]
  exact ⟨hmem, ((C1_category_rows exItems1 exProducts1 exTrans1).1 _ hmem).1⟩

/-! ### Claim C3 -/

/-- C3 counterexample: the claim states that `LeadMetrics.conversion_rate`
always lies in [0, 100].  The code computes
`len(closed) / len(qualified) * 100` for any inputs, so with one qualified
lead and two closed-lead rows the rate is 200. -/
theorem C3_counterexample :
    (lead_metrics exQ3 exC3).conversion_rate = 200 ∧
    ¬ (lead_metrics exQ3 exC3).conversion_rate ≤ 100 := by
  norm_num [lead_metrics, lead_metrics_conversion_rate, exQ3, exC3]

/-- C3 (amended): `LeadMetrics.conversion_rate` lies in [0, 100] whenever
the closed-lead count is at most the qualified-lead count; when the
qualified-lead count is 0 the rate equals 0 exactly (the explicit guard,
no division by zero and no undefined value); and the per-segment
computation produces no rates at all — it fails with a `KeyError` because
the merged frame has no `business_segment` column (see C2). -/
theorem C3_conversion_rate_guarded (q : List QualifiedLead) (c : List ClosedLead) :
    (c.length ≤ q.length →
      0 ≤ (lead_metrics q c).conversion_rate ∧ (lead_metrics q c).conversion_rate ≤ 100) ∧
    (q = [] → (lead_metrics q c).conversion_rate = 0) ∧
    lead_conversion_by_segment q c = Except.error "KeyError: business_segment" := by
  refine ⟨?_, ?_, lead_conversion_by_segment_keyerror q c⟩
  · intro hle
    unfold lead_metrics lead_metrics_conversion_rate
    by_cases hq : 0 < q.length
    · simp only [hq, if_true]
      constructor
      · positivity
      · have hql : (0 : ℚ) < (q.length : ℚ) := by exact_mod_cast hq
        have hdiv : (c.length : ℚ) / (q.length : ℚ) ≤ 1 := by
          rw [div_le_one hql]
          exact_mod_cast hle
        calc ((c.length : ℚ) / (q.length : ℚ)) * 100 ≤ 1 * 100 := by
              exact mul_le_mul_of_nonneg_right hdiv (by norm_num)
          _ = 100 := by norm_num
    · simp [hq]
  · intro hq
    subst hq
    simp [lead_metrics, lead_metrics_conversion_rate]

/-- Witness for C3 at concrete lead tables. -/
theorem C3_conversion_rate_guarded_witness :
    (exC2.length ≤ exQ2.length ∧
      0 ≤ (lead_metrics exQ2 exC2).conversion_rate ∧
      (lead_metrics exQ2 exC2).conversion_rate ≤ 100) ∧
    (([] : List QualifiedLead) = [] ∧ (lead_metrics [] exC2).conversion_rate = 0) :=
  ⟨⟨by norm_num [exQ2, exC2], (C3_conversion_rate_guarded exQ2 exC2).1 (by norm_num [exQ2, exC2])⟩,
   ⟨rfl, (C3_conversion_rate_guarded [] exC2).2.1 rfl⟩⟩

/-! ### Claim C5 helpers -/

/-- Mapping the month field over the grouped rows recovers the group keys. -/
theorem map_month_mk (ks : List Nat) (f : Nat → SatisfactionRow)
    (hf : ∀ k, (f k).order_month = k) :
    (ks.map f).map (fun r => r.order_month) = ks := by
  induction ks with
  | nil => rfl
  | cons k t ih => simp [hf, ih]

/-- A list sum is at most length times an upper bound of its entries. -/
theorem list_sum_le_length_mul (l : List ℚ) (b : ℚ) (h : ∀ x ∈ l, x ≤ b) :
    l.sum ≤ (l.length : ℚ) * b := by
  induction l with
  | nil => simp
  | cons x xs ih =>
    simp only [List.sum_cons, List.length_cons]
    have hx := h x (List.mem_cons_self x xs)
    have hxs := ih (fun y hy => h y (List.mem_cons_of_mem x hy))
    push_cast
    linarith

/-- A list sum is at least length times a lower bound of its entries. -/
theorem list_length_mul_le_sum (l : List ℚ) (a : ℚ) (h : ∀ x ∈ l, a ≤ x) :
    (l.length : ℚ) * a ≤ l.sum := by
  induction l with
  | nil => simp
  | cons x xs ih =>
    simp only [List.sum_cons, List.length_cons]
    have hx := h x (List.mem_cons_self x xs)
    have hxs := ih (fun y hy => h y (List.mem_cons_of_mem x hy))
    push_cast
    linarith

/-! ### Claim C5 -/

/-- C5: `SatisfactionOverTime` has exactly one row per distinct calendar
month of the inner-joined review/order data (reviews without a matching
order are dropped by the merge), its months are strictly increasing in
chronological order, and — given that every review score is in 1–5 —
every row's mean review score lies in [1, 5]. -/
theorem C5_satisfaction_months (reviews : List OrderReview) (orders : List Order) :
    ((satisfaction_over_time reviews orders).map (fun r => r.order_month)).Pairwise (· < ·) ∧
    (∀ m : Nat, (m ∈ (satisfaction_over_time reviews orders).map (fun r => r.order_month)) ↔
      m ∈ (satisfaction_joined reviews orders).map (fun r => r.order_month)) ∧
    ((∀ rv ∈ reviews, 1 ≤ rv.review_score ∧ rv.review_score ≤ 5) →
      ∀ row ∈ satisfaction_over_time reviews orders, 1 ≤ row.mean ∧ row.mean ≤ 5) := by
  have hmap : (satisfaction_over_time reviews orders).map (fun r => r.order_month) =
      sortedKeys ((satisfaction_joined reviews orders).map (fun r => r.order_month)) := by
    unfold satisfaction_over_time
    exact map_month_mk _ _ (fun k => rfl)
  refine ⟨?_, ?_, ?_⟩
  · rw [hmap]
    exact sorted_sortedKeys _
  · intro m
    rw [hmap]
    exact mem_sortedKeys _ m
  · intro hsc row hrow
    unfold satisfaction_over_time at hrow
    rcases List.mem_map.mp hrow with ⟨k, hk, rfl⟩
    have hscores : ∀ x ∈ ((satisfaction_joined reviews orders).filter
        (fun r => r.order_month = k)).map (fun r => (r.review_score : ℚ)),
        (1:ℚ) ≤ x ∧ x ≤ 5 := by
      intro x hx
      rcases List.mem_map.mp hx with ⟨jr, hjr, rfl⟩
      have hjr2 : jr ∈ satisfaction_joined reviews orders := (List.mem_filter.mp hjr).1
      unfold satisfaction_joined at hjr2
      rcases List.mem_flatMap.mp hjr2 with ⟨rv, hrv, hjr3⟩
      rcases List.mem_map.mp hjr3 with ⟨o, ho, rfl⟩
      have := hsc rv hrv
      exact ⟨by exact_mod_cast this.1, by exact_mod_cast this.2⟩
    have hkmem : k ∈ (satisfaction_joined reviews orders).map (fun r => r.order_month) :=
      (mem_sortedKeys _ _).mp hk
    rcases List.mem_map.mp hkmem with ⟨jr0, hjr0, hjr0k⟩
    have hlenpos : 0 < ((satisfaction_joined reviews orders).filter
        (fun r => r.order_month = k)).length := by
      rw [List.length_pos]
      intro hnil
      have hmem0 : jr0 ∈ (satisfaction_joined reviews orders).filter
          (fun r => r.order_month = k) := List.mem_filter.mpr ⟨hjr0, by simp [hjr0k]⟩
      simp [hnil] at hmem0
    have hql : (0:ℚ) < (((satisfaction_joined reviews orders).filter
        (fun r => r.order_month = k)).length : ℚ) := by exact_mod_cast hlenpos
    have hlow := list_length_mul_le_sum (((satisfaction_joined reviews orders).filter
        (fun r => r.order_month = k)).map (fun r => (r.review_score : ℚ))) 1
      (fun x hx => (hscores x hx).1)
    have hhigh := list_sum_le_length_mul (((satisfaction_joined reviews orders).filter
        (fun r => r.order_month = k)).map (fun r => (r.review_score : ℚ))) 5
      (fun x hx => (hscores x hx).2)
    rw [List.length_map] at hlow hhigh
    constructor
    · show (1:ℚ) ≤ (((satisfaction_joined reviews orders).filter
          (fun r => r.order_month = k)).map (fun r => (r.review_score : ℚ))).sum /
        (((satisfaction_joined reviews orders).filter
          (fun r => r.order_month = k)).length : ℚ)
      rw [le_div_iff₀ hql]
      linarith
    · show (((satisfaction_joined reviews orders).filter
          (fun r => r.order_month = k)).map (fun r => (r.review_score : ℚ))).sum /
        (((satisfaction_joined reviews orders).filter
          (fun r => r.order_month = k)).length : ℚ) ≤ 5
      rw [div_le_iff₀ hql]
      linarith

/-- Witness for C5 at a one-review, one-order input. -/
theorem C5_satisfaction_months_witness :
    (∀ rv ∈ exReviews5, 1 ≤ rv.review_score ∧ rv.review_score ≤ 5) ∧
    (∀ row ∈ satisfaction_over_time exReviews5 exOrders5, 1 ≤ row.mean ∧ row.mean ≤ 5) :=
  ⟨by decide, (C5_satisfaction_months exReviews5 exOrders5).2.2 (by decide)⟩

/-! ### Claim C6 helpers -/

/-- The per-seller aggregation lists its rows in strictly ascending
seller-id order (the `groupby` key order). -/
theorem seller_agg_key_pairwise (items : List OrderItem) :
    (seller_agg items).Pairwise (fun a b => a.seller_id < b.seller_id) := by
  unfold seller_agg
  exact List.Pairwise.map _ (fun x y hxy => hxy) (sorted_sortedKeys _)

/-- Inserting a row whose seller id is below every present seller id into
a priority-ordered list keeps the list priority-ordered. -/
theorem pairwise_priority_orderedInsert (x : SellerRow) (l : List SellerRow)
    (hl : l.Pairwise sellerPriority)
    (hk : ∀ y ∈ l, x.seller_id < y.seller_id) :
    (List.orderedInsert (fun a b => a.total_revenue ≤ b.total_revenue) x l).Pairwise
      sellerPriority := by
  induction l with
  | nil => simp
  | cons b t ih =>
    rcases List.pairwise_cons.mp hl with ⟨hb, ht⟩
    simp only [List.orderedInsert]
    split
    case isTrue hxb =>
      refine List.pairwise_cons.mpr ⟨?_, hl⟩
      intro c hc
      rcases List.mem_cons.mp hc with rfl | hc
      · rcases lt_or_eq_of_le hxb with h | h
        · exact Or.inl h
        · exact Or.inr ⟨h, hk c (List.mem_cons_self _ _)⟩
      · have hbc : b.total_revenue ≤ c.total_revenue := by
          rcases hb c hc with h | h
          · exact le_of_lt h
          · exact le_of_eq h.1
        rcases lt_or_eq_of_le (le_trans hxb hbc) with h | h
        · exact Or.inl h
        · exact Or.inr ⟨h, hk c (List.mem_cons_of_mem _ hc)⟩
    case isFalse hxb =>
      refine List.pairwise_cons.mpr ⟨?_, ih ht (fun y hy => hk y (List.mem_cons_of_mem _ hy))⟩
      intro c hc
      rcases List.mem_cons.mp ((List.perm_orderedInsert _ x t).mem_iff.mp hc) with rfl | hc
      · exact Or.inl (not_le.mp hxb)
      · exact hb c hc

/-- The stable ascending sort by revenue of a key-ascending list is
ordered by `sellerPriority` (revenue ascending, seller id ascending on
ties): stability keeps tied rows in their ascending-key order. -/
theorem insertionSort_pairwise_priority (l : List SellerRow)
    (hl : l.Pairwise (fun a b => a.seller_id < b.seller_id)) :
    (List.insertionSort (fun a b => a.total_revenue ≤ b.total_revenue) l).Pairwise
      sellerPriority := by
  induction l with
  | nil => simp
  | cons x xs ih =>
    rcases List.pairwise_cons.mp hl with ⟨hx, hxs⟩
    simp only [List.insertionSort]
    refine pairwise_priority_orderedInsert x _ (ih hxs) ?_
    intro y hy
    exact hx y ((List.perm_insertionSort _ xs).mem_iff.mp hy)

/-- The descending seller ranking is ordered by descending revenue with
ties in descending seller-id order. -/
theorem sortValuesDesc_seller_pairwise (items : List OrderItem) :
    (sortValuesDesc (fun r => r.total_revenue) (seller_agg items)).Pairwise
      (fun x y => sellerPriority y x) := by
  unfold sortValuesDesc
  exact List.pairwise_reverse.mpr (insertionSort_pairwise_priority _ (seller_agg_key_pairwise items))

/-! ### Claim C6 -/

/-- C6 (amended): ties in `RevenueBySeller` are broken by seller id, not
by input order: `groupby` has already re-ordered the sellers into
ascending `seller_id` order, and the descending sort reverses a stable
ascending sort, so among tied sellers the one with the larger `seller_id`
wins.  Stated generally: whenever rows `a` and `b` of the per-seller
aggregation have equal revenue and `a.seller_id < b.seller_id`, if `a` is
retained in the top-20 report then so is `b` (the result is still
deterministic). -/
theorem C6_tie_breaks_by_seller_id (items : List OrderItem) (a b : SellerRow)
    (hb : b ∈ seller_agg items)
    (hrev : a.total_revenue = b.total_revenue) (hkey : a.seller_id < b.seller_id)
    (hmem : a ∈ revenue_by_seller items) : b ∈ revenue_by_seller items := by
  have hpw := sortValuesDesc_seller_pairwise items
  have hbR : b ∈ sortValuesDesc (fun r => r.total_revenue) (seller_agg items) :=
    (mem_sortValuesDesc _ _ _).mpr hb
  unfold revenue_by_seller at hmem ⊢
  rcases List.getElem_of_mem hmem with ⟨i, hi, hia⟩
  have hi20 : i < 20 := lt_of_lt_of_le hi (List.length_take_le _ _)
  have hiR : i < (sortValuesDesc (fun r => r.total_revenue) (seller_agg items)).length := by
    have := hi
    rw [List.length_take] at this
    omega
  have hiRa : (sortValuesDesc (fun r => r.total_revenue) (seller_agg items))[i] = a := by
    rw [← List.getElem_take (h := hi)]
    exact hia
  rcases List.getElem_of_mem hbR with ⟨j, hj, hjb⟩
  have hji : j < i := by
    rcases lt_trichotomy i j with h | h | h
    · exfalso
      have := List.pairwise_iff_getElem.mp hpw i j hiR hj h
      rw [hiRa, hjb] at this
      rcases this with h2 | h2
      · rw [hrev] at h2
        exact lt_irrefl _ h2
      · exact absurd hkey (not_lt.mpr (le_of_lt h2.2))
    · exfalso
      subst h
      rw [hiRa] at hjb
      subst hjb
      exact lt_irrefl _ hkey
    · exact h
  have hjtake : j < (List.take 20 (sortValuesDesc (fun r => r.total_revenue)
      (seller_agg items))).length := by
    rw [List.length_take]
    omega
  have : (List.take 20 (sortValuesDesc (fun r => r.total_revenue) (seller_agg items)))[j] = b := by
    rw [List.getElem_take (h := hjtake)]
    exact hjb
  rw [← this]
  exact List.getElem_mem hjtake

set_option maxHeartbeats 4000000 in
/-- C6 counterexample: the claim states that among tied sellers the one
whose first occurrence appears earlier in `OrderItem` is retained.  In
`exItems6` seller `A` occurs first (before `B`), `A` and `B` are tied with
revenue 10 at the 20th position (19 other sellers have revenue 100), yet
the 20-row report retains `B` and drops `A`. -/
theorem C6_counterexample :
    exItems6.map (fun it => it.seller_id) =
      ["A", "B", "C01", "C02", "C03", "C04", "C05", "C06", "C07", "C08", "C09",
       "C10", "C11", "C12", "C13", "C14", "C15", "C16", "C17", "C18", "C19"] ∧
    (⟨"A", 10, 1⟩ : SellerRow) ∈ seller_agg exItems6 ∧
    (⟨"B", 10, 1⟩ : SellerRow) ∈ seller_agg exItems6 ∧
    (revenue_by_seller exItems6).length = 20 ∧
    (⟨"B", 10, 1⟩ : SellerRow) ∈ revenue_by_seller exItems6 ∧
    (⟨"A", 10, 1⟩ : SellerRow) ∉ revenue_by_seller exItems6 := by
  refine ⟨rfl, ?_⟩
  norm_num +decide [revenue_by_seller, seller_agg, sortedKeys, insertKey, sortValuesDesc,
    exItems6, List.filter, List.insertionSort, List.orderedInsert]

set_option maxHeartbeats 1000000 in
/-- Witness for C6 on a two-seller tie inside the top 20. -/
theorem C6_tie_breaks_by_seller_id_witness :
    ((⟨"B", 10, 1⟩ : SellerRow) ∈ seller_agg exItems6w ∧
      (⟨"A", 10, 1⟩ : SellerRow).total_revenue = (⟨"B", 10, 1⟩ : SellerRow).total_revenue ∧
      (⟨"A", 10, 1⟩ : SellerRow).seller_id < (⟨"B", 10, 1⟩ : SellerRow).seller_id ∧
      (⟨"A", 10, 1⟩ : SellerRow) ∈ revenue_by_seller exItems6w) ∧
    (⟨"B", 10, 1⟩ : SellerRow) ∈ revenue_by_seller exItems6w := by
  have h1 : (⟨"B", 10, 1⟩ : SellerRow) ∈ seller_agg exItems6w := by
    norm_num +decide [seller_agg, sortedKeys, insertKey, exItems6w, List.filter]
  have h2 : (⟨"A", 10, 1⟩ : SellerRow) ∈ revenue_by_seller exItems6w := by
    norm_num +decide [revenue_by_seller, seller_agg, sortedKeys, insertKey, sortValuesDesc,
      exItems6w, List.filter, List.insertionSort, List.orderedInsert]
  exact ⟨⟨h1, rfl, by norm_num; decide, h2⟩,
    C6_tie_breaks_by_seller_id exItems6w ⟨"A", 10, 1⟩ ⟨"B", 10, 1⟩ h1 rfl (by norm_num; decide) h2⟩

/-! ### Claim C7 helpers -/

/-- A `flatMap` whose pieces have at most one element does not grow the list. -/
theorem length_flatMap_le_of_le_one {α β : Type} (l : List α) (f : α → List β)
    (h : ∀ x ∈ l, (f x).length ≤ 1) : (l.flatMap f).length ≤ l.length := by
  induction l with
  | nil => simp
  | cons x xs ih =>
    rw [List.flatMap_cons, List.length_append, List.length_cons]
    have h1 := h x (List.mem_cons_self x xs)
    have h2 := ih (fun y hy => h y (List.mem_cons_of_mem x hy))
    omega

/-- Filtering rows on a key value keeps at most one row when the key
column is duplicate-free. -/
theorem filter_key_length_le_one {α κ : Type} [DecidableEq κ] (key : α → κ) (r : List α)
    (hr : (r.map key).Nodup) (k : κ) :
    (r.filter (fun y => key y = k)).length ≤ 1 := by
  induction r with
  | nil => simp
  | cons y ys ih =>
    rw [List.map_cons, List.nodup_cons] at hr
    obtain ⟨hy, hys⟩ := hr
    by_cases h : key y = k
    · have hnil : ys.filter (fun z => key z = k) = [] := by
        rw [List.filter_eq_nil_iff]
        intro z hz
        simp only [decide_eq_true_eq]
        intro hzk
        exact hy (List.mem_map.mpr ⟨z, hz, by rw [hzk, h]⟩)
      simp [List.filter_cons, h, hnil]
    · simpa [List.filter_cons, h] using ih hys

/-- Summing over a `flatMap` is bounded by a per-element bound. -/
theorem sum_flatMap_le {α β : Type} (l : List α) (f : α → List β) (g : β → ℚ) (m : α → ℚ)
    (h : ∀ x ∈ l, ((f x).map g).sum ≤ m x) :
    ((l.flatMap f).map g).sum ≤ (l.map m).sum := by
  induction l with
  | nil => simp
  | cons x xs ih =>
    rw [List.flatMap_cons, List.map_append, List.sum_append, List.map_cons, List.sum_cons]
    exact add_le_add (h x (List.mem_cons_self x xs))
      (ih (fun y hy => h y (List.mem_cons_of_mem x hy)))

/-- A sum of at most one copy of a non-negative value is at most that value. -/
theorem sum_map_singleton_le {β : Type} (l : List β) (g : β → ℚ) (v : ℚ) (hv : 0 ≤ v)
    (hl : l.length ≤ 1) (h : ∀ y ∈ l, g y = v) : (l.map g).sum ≤ v := by
  match l with
  | [] => simpa using hv
  | [y] => simp [h y (List.mem_cons_self y [])]
  | y :: z :: t => simp at hl

/-- A sublist of a list of non-negative rationals has a smaller sum. -/
theorem sum_le_sum_of_sublist (l1 l2 : List ℚ) (h : l1.Sublist l2)
    (h0 : ∀ x ∈ l2, 0 ≤ x) : l1.sum ≤ l2.sum := by
  induction h with
  | slnil => simp
  | cons a hsub ih =>
    rw [List.sum_cons]
    have hrec := ih (fun x hx => h0 x (List.mem_cons_of_mem _ hx))
    have ha := h0 a (List.mem_cons_self _ _)
    linarith
  | cons₂ a hsub ih =>
    rw [List.sum_cons, List.sum_cons]
    have hrec := ih (fun x hx => h0 x (List.mem_cons_of_mem _ hx))
    linarith

/-- Every merged item-product row carries the price of some item row. -/
theorem mem_items_products {items : List OrderItem} {products : List Product}
    {x : ItemWithCategory} (hx : x ∈ items_products items products) :
    ∃ it ∈ items, x.price = it.price := by
  unfold items_products at hx
  rcases List.mem_flatMap.mp hx with ⟨it, hit, hx2⟩
  rcases List.mem_map.mp hx2 with ⟨p, hp, rfl⟩
  exact ⟨it, hit, rfl⟩

/-- Every fully joined category row carries the price of some item row. -/
theorem mem_joined_category {items : List OrderItem} {products : List Product}
    {trans : List CategoryTranslation} {x : ItemWithCategoryEn}
    (hx : x ∈ joined_category items products trans) :
    ∃ it ∈ items, x.price = it.price := by
  unfold joined_category at hx
  rcases List.mem_flatMap.mp hx with ⟨ic, hic, hx2⟩
  rcases List.mem_map.mp hx2 with ⟨t, ht, rfl⟩
  rcases mem_items_products hic with ⟨it, hit, heq⟩
  exact ⟨it, hit, heq⟩

/-- With unique product ids the first category merge does not grow the
item table. -/
theorem items_products_length_le (items : List OrderItem) (products : List Product)
    (hp : (products.map (fun p => p.product_id)).Nodup) :
    (items_products items products).length ≤ items.length := by
  unfold items_products
  refine length_flatMap_le_of_le_one _ _ (fun it hit => ?_)
  rw [List.length_map]
  exact filter_key_length_le_one (fun p => p.product_id) products hp it.product_id

/-- With unique join keys the joined category table has at most one row
per item row. -/
theorem joined_category_length_le (items : List OrderItem) (products : List Product)
    (trans : List CategoryTranslation)
    (hp : (products.map (fun p => p.product_id)).Nodup)
    (ht : (trans.map (fun t => t.product_category_name)).Nodup) :
    (joined_category items products trans).length ≤ items.length := by
  unfold joined_category
  refine le_trans (length_flatMap_le_of_le_one _ _ (fun ic hic => ?_))
    (items_products_length_le items products hp)
  rw [List.length_map]
  exact filter_key_length_le_one (fun t => t.product_category_name) trans ht
    ic.product_category_name

/-- With unique product ids and non-negative prices the merged price
column sums to at most the source price column. -/
theorem items_products_sum_le (items : List OrderItem) (products : List Product)
    (hp : (products.map (fun p => p.product_id)).Nodup)
    (hpr : ∀ it ∈ items, 0 ≤ it.price) :
    ((items_products items products).map (fun x => x.price)).sum ≤
      (items.map (fun it => it.price)).sum := by
  unfold items_products
  refine sum_flatMap_le _ _ _ _ (fun it hit => ?_)
  refine sum_map_singleton_le _ _ _ (hpr it hit) ?_ ?_
  · rw [List.length_map]
    exact filter_key_length_le_one (fun p => p.product_id) products hp it.product_id
  · intro y hy
    rcases List.mem_map.mp hy with ⟨p, hp2, rfl⟩
    rfl

/-- With unique join keys and non-negative prices the joined category
price column sums to at most the source price column. -/
theorem joined_category_sum_le (items : List OrderItem) (products : List Product)
    (trans : List CategoryTranslation)
    (hp : (products.map (fun p => p.product_id)).Nodup)
    (ht : (trans.map (fun t => t.product_category_name)).Nodup)
    (hpr : ∀ it ∈ items, 0 ≤ it.price) :
    ((joined_category items products trans).map (fun x => x.price)).sum ≤
      (items.map (fun it => it.price)).sum := by
  unfold joined_category
  refine le_trans (sum_flatMap_le _ _ _ (fun ic => ic.price) (fun ic hic => ?_))
    (items_products_sum_le items products hp hpr)
  have hnn : 0 ≤ ic.price := by
    rcases mem_items_products hic with ⟨it, hit, heq⟩
    rw [heq]
    exact hpr it hit
  refine sum_map_singleton_le _ _ _ hnn ?_ ?_
  · rw [List.length_map]
    exact filter_key_length_le_one (fun t => t.product_category_name) trans ht
      ic.product_category_name
  · intro y hy
    rcases List.mem_map.mp hy with ⟨t, ht2, rfl⟩
    rfl

/-- The price column of the projected item table is the price column of
the item table. -/
theorem items_proj_map_snd (items : List OrderItem) :
    (items_proj items).map (fun x => x.2) = items.map (fun it => it.price) := by
  induction items with
  | nil => rfl
  | cons x xs ih => simp only [items_proj, List.map_cons] at *; rw [ih]

/-- With unique join keys the joined region table has at most one row per
projected item row. -/
theorem joined_region_length_le (pitems : List (String × ℚ)) (orders : List Order)
    (customers : List Customer)
    (ho : (orders.map (fun o => o.order_id)).Nodup)
    (hc : (customers.map (fun cu => cu.customer_id)).Nodup) :
    (joined_region_proj pitems orders customers).length ≤ pitems.length := by
  unfold joined_region_proj
  refine le_trans (length_flatMap_le_of_le_one _ _ (fun x hx => ?_))
    (length_flatMap_le_of_le_one _ _ (fun it hit => ?_))
  · rw [List.length_map]
    exact filter_key_length_le_one (fun cu => cu.customer_id) customers hc x.2.2
  · rw [List.length_map]
    exact filter_key_length_le_one (fun o => o.order_id) orders ho it.1

/-- With unique join keys and non-negative prices the joined region price
column sums to at most the projected price column. -/
theorem joined_region_sum_le (pitems : List (String × ℚ)) (orders : List Order)
    (customers : List Customer)
    (ho : (orders.map (fun o => o.order_id)).Nodup)
    (hc : (customers.map (fun cu => cu.customer_id)).Nodup)
    (hpr : ∀ x ∈ pitems, 0 ≤ x.2) :
    ((joined_region_proj pitems orders customers).map (fun r => r.price)).sum ≤
      (pitems.map (fun x => x.2)).sum := by
  unfold joined_region_proj
  have horigin : ∀ x ∈ pitems.flatMap (fun it =>
      (orders.filter fun o => o.order_id = it.1).map fun o => (it.1, it.2, o.customer_id)),
      ∃ it ∈ pitems, x.2.1 = it.2 := by
    intro x hx
    rcases List.mem_flatMap.mp hx with ⟨it, hit, hx2⟩
    rcases List.mem_map.mp hx2 with ⟨o, ho2, rfl⟩
    exact ⟨it, hit, rfl⟩
  refine le_trans (sum_flatMap_le _ _ _ (fun x : String × ℚ × String => x.2.1) (fun x hx => ?_)) ?_
  · have hnn : 0 ≤ x.2.1 := by
      rcases horigin x hx with ⟨it, hit, heq⟩
      rw [heq]
      exact hpr it hit
    refine sum_map_singleton_le _ _ _ hnn ?_ ?_
    · rw [List.length_map]
      exact filter_key_length_le_one (fun cu => cu.customer_id) customers hc x.2.2
    · intro y hy
      rcases List.mem_map.mp hy with ⟨cu, hcu, rfl⟩
      rfl
  · refine sum_flatMap_le _ _ _ (fun it : String × ℚ => it.2) (fun it hit => ?_)
    refine sum_map_singleton_le _ _ _ (hpr it hit) ?_ ?_
    · rw [List.length_map]
      exact filter_key_length_le_one (fun o => o.order_id) orders ho it.1
    · intro y hy
      rcases List.mem_map.mp hy with ⟨o, ho2, rfl⟩
      rfl

/-- With unique order ids the review-order merge has at most one row per
review. -/
theorem satisfaction_joined_length_le (reviews : List OrderReview) (orders : List Order)
    (ho : (orders.map (fun o => o.order_id)).Nodup) :
    (satisfaction_joined reviews orders).length ≤ reviews.length := by
  unfold satisfaction_joined
  refine length_flatMap_le_of_le_one _ _ (fun rv hrv => ?_)
  rw [List.length_map]
  exact filter_key_length_le_one (fun o => o.order_id) orders ho rv.order_id

/-- Every joined region row carries the price of some projected item row. -/
theorem mem_joined_region {pitems : List (String × ℚ)} {orders : List Order}
    {customers : List Customer} {x : ItemWithState}
    (hx : x ∈ joined_region_proj pitems orders customers) :
    ∃ it ∈ pitems, x.price = it.2 := by
  unfold joined_region_proj at hx
  rcases List.mem_flatMap.mp hx with ⟨y, hy, hx2⟩
  rcases List.mem_map.mp hx2 with ⟨cu, hcu, rfl⟩
  rcases List.mem_flatMap.mp hy with ⟨it, hit, hy2⟩
  rcases List.mem_map.mp hy2 with ⟨o, ho2, rfl⟩
  exact ⟨it, hit, rfl⟩

/-! ### Claim C7 -/

/-- C7 (amended): given non-negative prices and duplicate-free join keys
in the dimension tables (`Product.product_id`,
`CategoryTranslation.product_category_name`, `Order.order_id`,
`Customer.customer_id`), every aggregated count of every report is at most
the row count of the unfiltered source table it came from, and every
aggregated revenue sum is at most the source price-column sum; the
per-segment lead report contributes no counts because it fails with a
`KeyError` (see C2). -/
theorem C7_aggregates_bounded_by_sources
    (items : List OrderItem) (products : List Product) (trans : List CategoryTranslation)
    (orders : List Order) (customers : List Customer) (reviews : List OrderReview)
    (q : List QualifiedLead) (c : List ClosedLead)
    (hp : (products.map (fun p => p.product_id)).Nodup)
    (ht : (trans.map (fun t => t.product_category_name)).Nodup)
    (ho : (orders.map (fun o => o.order_id)).Nodup)
    (hc : (customers.map (fun cu => cu.customer_id)).Nodup)
    (hpr : ∀ it ∈ items, 0 ≤ it.price) :
    (∀ r ∈ revenue_by_category items products trans,
      r.order_count ≤ items.length ∧
      r.total_revenue ≤ (items.map (fun it => it.price)).sum) ∧
    (∀ r ∈ revenue_by_region items orders customers,
      r.order_count ≤ items.length ∧
      r.total_revenue ≤ (items.map (fun it => it.price)).sum) ∧
    (∀ r ∈ revenue_by_seller items,
      r.order_count ≤ items.length ∧
      r.total_revenue ≤ (items.map (fun it => it.price)).sum) ∧
    (delivery_metrics orders).length ≤ orders.length ∧
    (∀ r ∈ satisfaction_over_time reviews orders, r.count ≤ reviews.length) ∧
    (lead_metrics q c).total_qualified_leads ≤ q.length ∧
    (lead_metrics q c).total_closed_leads ≤ c.length ∧
    lead_conversion_by_segment q c = Except.error "KeyError: business_segment" := by
  refine ⟨?_, ?_, ?_, ?_, ?_, le_refl _, le_refl _, lead_conversion_by_segment_keyerror q c⟩
  · intro r hr
    unfold revenue_by_category at hr
    rw [mem_sortValuesDesc] at hr
    rcases List.mem_map.mp hr with ⟨k, hk, rfl⟩
    constructor
    · exact le_trans (List.length_filter_le _ _)
        (joined_category_length_le items products trans hp ht)
    · refine le_trans (sum_le_sum_of_sublist _ _
        ((List.filter_sublist _).map (fun x : ItemWithCategoryEn => x.price)) ?_)
        (joined_category_sum_le items products trans hp ht hpr)
      intro x hx
      rcases List.mem_map.mp hx with ⟨j, hj, rfl⟩
      rcases mem_joined_category hj with ⟨it, hit, heq⟩
      rw [heq]
      exact hpr it hit
  · intro r hr
    unfold revenue_by_region revenue_by_region_proj at hr
    rw [mem_sortValuesDesc] at hr
    rcases List.mem_map.mp hr with ⟨k, hk, rfl⟩
    have hnnp : ∀ x ∈ items_proj items, 0 ≤ x.2 := by
      intro x hx
      rcases List.mem_map.mp hx with ⟨it, hit, rfl⟩
      exact hpr it hit
    constructor
    · refine le_trans (List.length_filter_le _ _) ?_
      refine le_trans (joined_region_length_le _ orders customers ho hc) ?_
      exact le_of_eq (by unfold items_proj; rw [List.length_map])
    · refine le_trans (sum_le_sum_of_sublist _ _
        ((List.filter_sublist _).map (fun x : ItemWithState => x.price)) ?_) ?_
      · intro x hx
        rcases List.mem_map.mp hx with ⟨j, hj, rfl⟩
        rcases mem_joined_region hj with ⟨it, hit, heq⟩
        rw [heq]
        exact hnnp it hit
      · refine le_trans (joined_region_sum_le _ orders customers ho hc hnnp) ?_
        rw [items_proj_map_snd]
  · intro r hr
    unfold revenue_by_seller at hr
    have hr2 := List.mem_of_mem_take hr
    rw [mem_sortValuesDesc] at hr2
    unfold seller_agg at hr2
    rcases List.mem_map.mp hr2 with ⟨k, hk, rfl⟩
    constructor
    · exact List.length_filter_le _ _
    · refine sum_le_sum_of_sublist _ _ ((List.filter_sublist _).map (fun it : OrderItem => it.price)) ?_
      intro x hx
      rcases List.mem_map.mp hx with ⟨it, hit, rfl⟩
      exact hpr it hit
  · exact le_of_eq (by unfold delivery_metrics; rw [List.length_map])
  · intro r hr
    unfold satisfaction_over_time at hr
    rcases List.mem_map.mp hr with ⟨k, hk, rfl⟩
    exact le_trans (List.length_filter_le _ _) (satisfaction_joined_length_le reviews orders ho)

/-- C7 counterexample: the claim quantifies over every input, but with a
duplicated `product_id` in the product table the inner merge fans out:
one item row of price 5 yields a category row with `order_count` 2 > 1 row
and `total_revenue` 10 > 5. -/
theorem C7_counterexample :
    (∀ it ∈ exItems7, 0 ≤ it.price) ∧
    revenue_by_category exItems7 exProducts7 exTrans1 = [⟨"c_en", 10, 2⟩] ∧
    exItems7.length = 1 ∧
    (exItems7.map (fun it => it.price)).sum = 5 ∧
    ¬ ((2 : Nat) ≤ 1) ∧ ¬ ((10 : ℚ) ≤ 5) := by
  refine ⟨by norm_num [exItems7], ?_, rfl, by norm_num [exItems7], by norm_num, by norm_num⟩
  norm_num +decide [revenue_by_category, joined_category, items_products, sortedKeys,
    insertKey, sortValuesDesc, exItems7, exProducts7, exTrans1, List.filter,
    List.insertionSort, List.orderedInsert]

/-- Witness for C7 at small concrete tables with unique keys. -/
theorem C7_aggregates_bounded_by_sources_witness :
    ((exProducts1.map (fun p => p.product_id)).Nodup ∧
     (exTrans1.map (fun t => t.product_category_name)).Nodup ∧
     (exOrders5.map (fun o => o.order_id)).Nodup ∧
     (([⟨"cu", "SP"⟩] : List Customer).map (fun cu => cu.customer_id)).Nodup ∧
     (∀ it ∈ exItems1, 0 ≤ it.price)) ∧
    ((∀ r ∈ revenue_by_category exItems1 exProducts1 exTrans1,
       r.order_count ≤ exItems1.length ∧
       r.total_revenue ≤ (exItems1.map (fun it => it.price)).sum) ∧
     (∀ r ∈ revenue_by_region exItems1 exOrders5 [⟨"cu", "SP"⟩],
       r.order_count ≤ exItems1.length ∧
       r.total_revenue ≤ (exItems1.map (fun it => it.price)).sum) ∧
     (∀ r ∈ revenue_by_seller exItems1,
       r.order_count ≤ exItems1.length ∧
       r.total_revenue ≤ (exItems1.map (fun it => it.price)).sum) ∧
     (delivery_metrics exOrders5).length ≤ exOrders5.length ∧
     (∀ r ∈ satisfaction_over_time exReviews5 exOrders5, r.count ≤ exReviews5.length) ∧
     (lead_metrics exQ2 exC2).total_qualified_leads ≤ exQ2.length ∧
     (lead_metrics exQ2 exC2).total_closed_leads ≤ exC2.length ∧
     lead_conversion_by_segment exQ2 exC2 = Except.error "KeyError: business_segment") :=
  ⟨⟨by decide, by decide, by decide, by decide, by norm_num [exItems1]⟩,
   C7_aggregates_bounded_by_sources exItems1 exProducts1 exTrans1 exOrders5 [⟨"cu", "SP"⟩]
     exReviews5 exQ2 exC2 (by decide) (by decide) (by decide) (by decide)
     (by norm_num [exItems1])⟩

end Dashboard
